import Mathlib

/-!
Verification of the feedmix fetch-normalize-merge pipeline
(`src/feedmix/feedmixer.py`).

The definitions below are a shallow embedding of the Python source.
Feedparser dictionaries are modelled as structures whose fields are the
keys the pipeline reads or writes; a `none` models an absent key (or a
`None` value, which the pipeline treats the same way wherever it looks
at these fields).  Python's truthiness tests on strings are modelled
explicitly (`none` and `some ""` are both falsy).  The thread pool's
`as_completed` iteration is modelled by the order of the per-source
outcome list handed to the pipeline: one list order per completion
order.  Machine integers are `Int`/`Nat` (Python integers are unbounded,
so no overflow modelling is needed).
-/

namespace Feedmix

/-- An `author_detail` sub-dictionary (feedparser): each of the keys
`name`, `email`, `href` may be absent. -/
structure AuthorDetail where
  name : Option String
  email : Option String
  href : Option String
  deriving DecidableEq, Repr

/-- One element of an entry's `tags` list; `tag.get('term')`. -/
structure Tag where
  term : Option String
  deriving DecidableEq, Repr

/-- One element of an entry's `content` list; `content[0].get('value')`. -/
structure ContentBlock where
  value : Option String
  deriving DecidableEq, Repr

/-- One element of an entry's `enclosures` list.  The code reads the
attributes `enc.href`, `enc.length`, `enc.type` (unconditionally), and
`feedgenerator.Enclosure` stores the same three strings. -/
structure Enclosure where
  href : String
  length : String
  type : String
  deriving DecidableEq, Repr

/-- The first six fields of a `time.struct_time` tuple `tp[:5] + (tp[5],)`
as used by `extract_meta`. -/
structure TimeStruct where
  year : Int
  month : Int
  day : Int
  hour : Int
  minute : Int
  second : Int
  deriving DecidableEq, Repr

/-- A `datetime.datetime` value as constructed by `extract_meta`. -/
structure DateTime where
  year : Int
  month : Int
  day : Int
  hour : Int
  minute : Int
  second : Int
  deriving DecidableEq, Repr

/-- One entry of a parsed feed (a feedparser `FeedParserDict`), with the
keys the pipeline touches.  `feed_link` and `feed_title` are absent in
parser output and are written by the annotation loop of
`__fetch_entries` (lines 246-254). -/
structure Entry where
  title : Option String
  link : Option String
  summary : Option String
  content : Option (List ContentBlock)
  author_detail : Option AuthorDetail
  feed_link : Option String
  feed_title : Option String
  published : Option String
  updated : Option String
  published_parsed : Option TimeStruct
  updated_parsed : Option TimeStruct
  comments : Option String
  id : Option String
  license : Option String
  tags : Option (List Tag)
  enclosures : Option (List Enclosure)
  deriving DecidableEq, Repr

/-- The feed-level metadata read by `__fetch_entries`: `f.feed.link`,
`f.feed.title`, and the optional `f.feed.author_detail`. -/
structure FeedMeta where
  link : String
  title : String
  author_detail : Option AuthorDetail
  deriving DecidableEq, Repr

/-- The result of `feedparser.parse` as consumed by the pipeline:
`f.feed`, `f.entries`, the malformed flag `f.bozo` and the
`f.bozo_exception` message (modelled as its string rendering). -/
@[ext]
structure ParsedFeed where
  feed : FeedMeta
  entries : List Entry
  bozo : Bool
  bozo_exception : Option String
  deriving DecidableEq, Repr

/-- The classified per-URL failure stored in `error_urls`: the code's
`ParseError`, a `requests.RequestException` from `fetch`, or any other
exception raised inside a fetch task. -/
inductive FCError where
  | parseError (msg : String)
  | requestError (msg : String)
  | otherError (msg : String)
  deriving DecidableEq, Repr

/-- The outcome of one fetch task as seen by the `as_completed` loop:
either `future.result()` returned a response whose text parsed to `f`
(via `cache_parser`), or the task raised an exception. -/
inductive FetchOutcome where
  | ok (f : ParsedFeed)
  | exn (e : FCError)
  deriving DecidableEq, Repr

/-- The `feedgenerator`-compatible metadata dictionary built by
`extract_meta` for one entry.  A `none` models an absent key or a `None`
value (equivalent for the downstream `add_item` call, whose keyword
parameters all default to `None`). -/
structure Meta where
  title : String
  link : String
  description : Option String
  author_email : Option String
  author_name : Option String
  author_link : Option String
  feed_link : Option String
  feed_title : Option String
  pubdate : Option DateTime
  updateddate : Option DateTime
  comments : Option String
  unique_id : Option String
  item_copyright : Option String
  categories : Option (List (Option String))
  enclosures : Option (List Enclosure)
  enclosure : Option Enclosure
  deriving DecidableEq, Repr

/-- Python's `a or b` for a string-valued `a` that may be absent:
the value of `a` when it is truthy (present and non-empty), else `b`. -/
def pyOr (a : Option String) (b : String) : String :=
  match a with
  | some s => if s = "" then b else s
  | none => b

/-- Python's `a or b` where both operands are string-or-absent. -/
def pyOrOpt (a b : Option String) : Option String :=
  match a with
  | some s => if s = "" then b else some s
  | none => b

/-- The sort key of line 264:
`e.get('published') or e.get('updated') or ""`. -/
def entryKey (e : Entry) : String :=
  pyOr e.published (pyOr e.updated "")

/-- Lines 292-296: `content = e.get('content')`; if it is truthy (a
non-empty list) it is replaced by `content[0].get('value')`.  A falsy
value (absent or the empty list, both treated as "no content" by the
subsequent truthiness tests) is modelled as `none`. -/
def resolveContent : Option (List ContentBlock) → Option String
  | some (c :: _) => c.value
  | some [] => none
  | none => none

/-- Lines 317-318 and 322-323: convert a time tuple to a datetime,
clamping a leap second (`min(tp[5], 59)`). -/
def toDateTime (t : TimeStruct) : DateTime :=
  { year := t.year, month := t.month, day := t.day,
    hour := t.hour, minute := t.minute, second := min t.second 59 }

/-- The body of the `extract_meta` loop (lines 284-343) for one entry. -/
def entryMeta (prefer_summary : Bool) (e : Entry) : Meta :=
  { title := e.title.getD ""
    link := e.link.getD ""
    description :=
      let content := resolveContent e.content
      if prefer_summary then pyOrOpt e.summary content
      else pyOrOpt content e.summary
    author_email := e.author_detail.bind (fun ad => ad.email)
    author_name := e.author_detail.bind (fun ad => ad.name)
    author_link := e.author_detail.bind (fun ad => ad.href)
    feed_link := e.feed_link
    feed_title := e.feed_title
    pubdate := e.published_parsed.map toDateTime
    updateddate := e.updated_parsed.map toDateTime
    comments := e.comments
    unique_id := e.id
    item_copyright := e.license
    categories := e.tags.map (fun ts => ts.map (fun t => t.term))
    enclosures := e.enclosures
    enclosure :=
      match e.enclosures with
      | some (x :: _) => some x
      | _ => none }

/-- `FeedMixer.extract_meta(parsed_entries, prefer_summary)`: one
metadata record per entry, in order. -/
def extract_meta (parsed_entries : List Entry) (prefer_summary : Bool) :
    List Meta :=
  parsed_entries.map (entryMeta prefer_summary)

/-- The per-entry writes of lines 246-254: set `feed_link` and
`feed_title` from the parent feed, and inherit the feed's
`author_detail` when the entry has none. -/
def annotateEntry (f : ParsedFeed) (e : Entry) : Entry :=
  let e1 := { e with feed_link := some f.feed.link,
                     feed_title := some f.feed.title }
  match e.author_detail, f.feed.author_detail with
  | none, some ad => { e1 with author_detail := some ad }
  | _, _ => e1

/-- Lines 241-244: keep all entries when `num_keep < 1`, else the slice
`f.entries[0:num_keep]`. -/
def keepNewest (num_keep : Int) (entries : List Entry) : List Entry :=
  if num_keep < 1 then entries else entries.take num_keep.toNat

/-- The per-source body of the `as_completed` loop (lines 225-256): a
raised exception is the error; otherwise the parse-error check of lines
233-238 (`len(f.get('entries')) == 0 and f.get('bozo')`) may raise
`ParseError`; otherwise the kept entries are annotated and contributed.
(`f is None` cannot occur: `feedparser.parse` always returns a dict.) -/
def processSource (num_keep : Int) (oc : FetchOutcome) :
    Except FCError (List Entry) :=
  match oc with
  | .exn e => .error e
  | .ok f =>
      if f.entries.length = 0 ∧ f.bozo = true then
        .error (.parseError ("Parse error: " ++ f.bozo_exception.getD "None"))
      else
        .ok ((keepNewest num_keep f.entries).map (annotateEntry f))

/-- `self._error_urls[url] = e` on a Python (insertion-ordered) dict:
replace the value in place if the key is present, else append. -/
def dictInsert (k : String) (v : FCError) :
    List (String × FCError) → List (String × FCError)
  | [] => [(k, v)]
  | (k', v') :: t =>
      if k' = k then (k', v) :: t else (k', v') :: dictInsert k v t

/-- The whole `as_completed` loop: fold the per-source outcomes (in
completion order) over the accumulated `parsed_entries` list and
`error_urls` dict. -/
def collectSources (num_keep : Int)
    (acc : List Entry × List (String × FCError)) :
    List (String × FetchOutcome) → List Entry × List (String × FCError)
  | [] => acc
  | p :: t =>
      collectSources num_keep
        (match processSource num_keep p.2 with
         | .ok es => (acc.1 ++ es, acc.2)
         | .error e => (acc.1, dictInsert p.1 e acc.2)) t

/-- The entries accumulated by the loop (the successful sources'
annotated kept entries, concatenated in completion order). -/
def sourceEntries (num_keep : Int) : List (String × FetchOutcome) → List Entry
  | [] => []
  | p :: t =>
      (match processSource num_keep p.2 with
       | .ok es => es
       | .error _ => []) ++ sourceEntries num_keep t

/-- The error dict accumulated by the loop. -/
def sourceErrors (num_keep : Int) (d : List (String × FCError)) :
    List (String × FetchOutcome) → List (String × FCError)
  | [] => d
  | p :: t =>
      sourceErrors num_keep
        (match processSource num_keep p.2 with
         | .ok _ => d
         | .error e => dictInsert p.1 e d) t

/-- Executable lexicographic comparison of `List Char` by code point,
matching Python's string `<` and Lean's `List.lt`; proved equivalent to
the `String` order below. -/
def listLtB : List Char → List Char → Bool
  | [], [] => false
  | [], _ :: _ => true
  | _ :: _, [] => false
  | a :: as, b :: bs =>
      if a < b then true
      else if b < a then false
      else listLtB as bs

/-- Executable `a <= b` on strings (Python's string comparison). -/
def strLeB (a b : String) : Bool := !(listLtB b.data a.data)

/-- One insertion step of the stable descending sort of lines 263-265:
place `a` before the first element whose key is at most `entryKey a`.
Elements with a strictly larger key stay in front, elements with an
equal key (which came later in the input) end up behind `a`. -/
def insertDesc (a : Entry) : List Entry → List Entry
  | [] => [a]
  | b :: t =>
      if strLeB (entryKey b) (entryKey a) then a :: b :: t
      else b :: insertDesc a t

/-- `parsed_entries.sort(key=..., reverse=True)` (lines 263-265):
Python's sort is stable; a stable descending sort is uniquely determined
by its key, so it is modelled by stable insertion sort.  (Sortedness,
stability and the permutation property are proved below.) -/
def pySortDesc : List Entry → List Entry
  | [] => []
  | a :: t => insertDesc a (pySortDesc t)

/-- `__fetch_entries` after the futures have completed, as a function of
the per-source outcomes in completion order: collect entries and errors,
sort, extract metadata.  Returns (`_mixed_entries`, `_error_urls`). -/
def runPipeline (num_keep : Int) (prefer_summary : Bool)
    (ocs : List (String × FetchOutcome)) :
    List Meta × List (String × FCError) :=
  let c := collectSources num_keep ([], []) ocs
  (extract_meta (pySortDesc c.1) prefer_summary, c.2)

/-- The attribute state of a `FeedMixer` object.  `runs` is a ghost
counter, not in the source: it counts executions of `__fetch_entries`
so that re-fetching is observable in the model.  The `requests.Session`
and its `User-Agent` header are external collaborators and not
modelled. -/
structure FMState where
  title : String
  link : String
  desc : String
  max_feeds : Nat
  feeds : List String
  num_keep : Int
  prefer_summary : Bool
  max_threads : Int
  mixed_entries : List Meta
  error_urls : List (String × FCError)
  runs : Nat
  deriving DecidableEq, Repr

/-- `FeedMixer.__init__` (lines 86-127): stores the configuration
unvalidated, truncates `feeds` to `max_feeds`, and starts with empty
`_mixed_entries` and `_error_urls`. -/
def mkFeedMixer (title link desc : String) (feeds : List String)
    (num_keep : Int) (prefer_summary : Bool) (max_threads : Int)
    (max_feeds : Nat) : FMState :=
  { title := title, link := link, desc := desc, max_feeds := max_feeds,
    feeds := feeds.take max_feeds, num_keep := num_keep,
    prefer_summary := prefer_summary, max_threads := max_threads,
    mixed_entries := [], error_urls := [], runs := 0 }

/-- The `feeds` setter (lines 169-175): truncate to `max_feeds` and
reset `_mixed_entries`. -/
def setFeeds (value : List String) (s : FMState) : FMState :=
  { s with feeds := value.take s.max_feeds, mixed_entries := [] }

/-- The `num_keep` setter (lines 137-140): store the value, then
reassign `feeds` to the current `_feeds` (which resets
`_mixed_entries`). -/
def setNumKeep (value : Int) (s : FMState) : FMState :=
  setFeeds s.feeds { s with num_keep := value }

/-- `__fetch_entries` as a state transformer.  Entering the
`ThreadPoolExecutor` context raises `ValueError` when
`max_workers <= 0`; that exception is outside the per-URL handler and
propagates to the caller, modelled by `Except.error`.  Per-source
outcomes are given by `net`; the completion order is modelled as the
submission order (order-(in)dependence is analysed separately). -/
def fetchEntries (net : String → FetchOutcome) (s : FMState) :
    Except String FMState :=
  if s.max_threads ≤ 0 then .error "max_workers must be greater than 0"
  else
    let r := runPipeline s.num_keep s.prefer_summary
      (s.feeds.map (fun u => (u, net u)))
    .ok { s with mixed_entries := r.1, error_urls := r.2,
                 runs := s.runs + 1 }

/-- The `mixed_entries` property (lines 142-151): fetch when fewer than
one entry is cached, then return the cached list. -/
def readMixedEntries (net : String → FetchOutcome) (s : FMState) :
    Except String (List Meta × FMState) :=
  if s.mixed_entries.length < 1 then
    (fetchEntries net s).map (fun r => (r.mixed_entries, r))
  else .ok (s.mixed_entries, s)

/-- The `error_urls` property (lines 153-160): return the stored dict.
It does not trigger a fetch. -/
def readErrorUrls (s : FMState) : List (String × FCError) × FMState :=
  (s.error_urls, s)

/-- `__generate_feed` (lines 346-354), shared by `atom_feed`,
`rss_feed` and `json_feed` (which differ only in the external
serializer class): read `mixed_entries` (triggering a fetch if needed)
and hand the feed metadata plus the entries to the renderer. -/
def generateFeed (net : String → FetchOutcome) (s : FMState) :
    Except String ((String × String × String) × List Meta × FMState) :=
  (readMixedEntries net s).map (fun p => ((s.title, s.link, s.desc), p.1, p.2))

/-- The in-place effect of the annotation loop on the *cached*
`ParsedFeed`: `cache_parser` memoizes `f`, `f.entries[0:num_keep]`
aliases the cached entry dicts, and lines 246-254 mutate those dicts.
This state-passing model returns the contributed entries together with
the cached feed as it looks after the loop: its kept entries are
annotated in place, the remaining entries and the feed metadata are
untouched. -/
def processFeedMut (num_keep : Int) (f : ParsedFeed) :
    List Entry × ParsedFeed :=
  let kept := if num_keep < 1 then f.entries.length else num_keep.toNat
  let newest := (keepNewest num_keep f.entries).map (annotateEntry f)
  (newest, { f with entries := newest ++ f.entries.drop kept })

/-- An entry with every key absent, used to build concrete inputs. -/
def emptyEntry : Entry :=
  { title := none, link := none, summary := none, content := none,
    author_detail := none, feed_link := none, feed_title := none,
    published := none, updated := none, published_parsed := none,
    updated_parsed := none, comments := none, id := none, license := none,
    tags := none, enclosures := none }

/-! ## Concrete inputs used for witnesses and counterexamples -/

def feedMetaA : FeedMeta :=
  { link := "http://a.example/", title := "A", author_detail := none }

def feedMetaB : FeedMeta :=
  { link := "http://b.example/", title := "B", author_detail := none }

def c1eNoTs : Entry := { emptyEntry with title := some "no-ts" }

def c1eTs : Entry :=
  { emptyEntry with title := some "with-ts", published := some "2020-01-02" }

def c1ocs : List (String × FetchOutcome) :=
  [("http://a.example/feed",
    .ok { feed := feedMetaA, entries := [c1eNoTs], bozo := false,
          bozo_exception := none }),
   ("http://b.example/feed",
    .ok { feed := feedMetaB, entries := [c1eTs], bozo := false,
          bozo_exception := none })]

def c1out : List Entry := pySortDesc (sourceEntries 3 c1ocs)

def c2f : ParsedFeed :=
  { feed := feedMetaA,
    entries := [{ emptyEntry with id := some "e1" },
                { emptyEntry with id := some "e2" },
                { emptyEntry with id := some "e3" }],
    bozo := false, bozo_exception := none }

def c3good : ParsedFeed :=
  { feed := feedMetaA, entries := [{ emptyEntry with id := some "g1" }],
    bozo := false, bozo_exception := none }

def c3pre : List (String × FetchOutcome) :=
  [("http://a.example/feed", .ok c3good)]

def c4ocs1 : List (String × FetchOutcome) :=
  [("http://a.example/feed",
    .ok { feed := feedMetaA, entries := [{ emptyEntry with title := some "a" }],
          bozo := false, bozo_exception := none }),
   ("http://b.example/feed",
    .ok { feed := feedMetaB, entries := [{ emptyEntry with title := some "b" }],
          bozo := false, bozo_exception := none })]

def c4ocs2 : List (String × FetchOutcome) :=
  [("http://b.example/feed",
    .ok { feed := feedMetaB, entries := [{ emptyEntry with title := some "b" }],
          bozo := false, bozo_exception := none }),
   ("http://a.example/feed",
    .ok { feed := feedMetaA, entries := [{ emptyEntry with title := some "a" }],
          bozo := false, bozo_exception := none })]

def c4ea : Entry :=
  { emptyEntry with title := some "a", published := some "2020-01-01" }

def c4eb : Entry :=
  { emptyEntry with title := some "b", published := some "2020-01-02" }

def c4docs1 : List (String × FetchOutcome) :=
  [("http://a.example/feed",
    .ok { feed := feedMetaA, entries := [c4ea], bozo := false,
          bozo_exception := none }),
   ("http://b.example/feed",
    .ok { feed := feedMetaB, entries := [c4eb], bozo := false,
          bozo_exception := none })]

def c4docs2 : List (String × FetchOutcome) :=
  [("http://b.example/feed",
    .ok { feed := feedMetaB, entries := [c4eb], bozo := false,
          bozo_exception := none }),
   ("http://a.example/feed",
    .ok { feed := feedMetaA, entries := [c4ea], bozo := false,
          bozo_exception := none })]

def c6net : String → FetchOutcome :=
  fun _ => .exn (.requestError "connection refused")

def c6s : FMState :=
  mkFeedMixer "T" "http://mix.example/" "D" ["http://a.example/feed"] 3 true
    10 100

def c7net : String → FetchOutcome :=
  fun _ => .ok { feed := feedMetaA, entries := [], bozo := false,
                 bozo_exception := none }

def c7s : FMState :=
  mkFeedMixer "T" "" "" ["http://a.example/feed"] 3 true 0 100

def c8f : ParsedFeed :=
  { feed := feedMetaA, entries := [], bozo := true,
    bozo_exception := some "not well-formed" }

def c9f : ParsedFeed :=
  { feed := feedMetaA, entries := [emptyEntry], bozo := false,
    bozo_exception := none }

def c10net : String → FetchOutcome :=
  fun _ => .exn (.requestError "host unreachable")

def c10s : FMState :=
  mkFeedMixer "T" "http://mix.example/" "D" ["http://a.example/feed"] 3 true
    10 100

/-! ## Order facts for the sort key -/

theorem listLtB_iff (x y : List Char) :
    listLtB x y = true ↔ List.Lex (· < ·) x y := by
  induction x generalizing y with
  | nil =>
    cases y with
    | nil =>
      constructor
      · intro h; nomatch h
      · intro h; nomatch h
    | cons b bs =>
      constructor
      · intro _; exact List.Lex.nil
      · intro _; rfl
  | cons a as ih =>
    cases y with
    | nil =>
      constructor
      · intro h; nomatch h
      · intro h; nomatch h
    | cons b bs =>
      show (if a < b then true
            else if b < a then false else listLtB as bs) = true ↔ _
      by_cases h1 : a < b
      · rw [if_pos h1]
        constructor
        · intro _; exact List.Lex.rel h1
        · intro _; rfl
      · rw [if_neg h1]
        by_cases h2 : b < a
        · rw [if_pos h2]
          constructor
          · intro h; nomatch h
          · intro h
            cases h with
            | cons h3 => exact absurd h2 (Char.lt_irrefl a)
            | rel hab => exact absurd hab h1
        · rw [if_neg h2]
          have heq : a = b :=
            le_antisymm (Char.not_lt.mp h2) (Char.not_lt.mp h1)
          subst heq
          rw [ih bs]
          constructor
          · intro h; exact List.Lex.cons h
          · intro h
            cases h with
            | cons h3 => exact h3
            | rel hab => exact absurd hab (Char.lt_irrefl a)

theorem strLeB_iff (a b : String) : strLeB a b = true ↔ a ≤ b := by
  have hbridge : listLtB b.data a.data = true ↔ b < a :=
    (listLtB_iff b.data a.data).trans (Iff.symm String.lt_iff_toList_lt)
  cases hb : listLtB b.data a.data with
  | false =>
    have hnlt : ¬ b < a := fun h => by
      rw [hbridge.mpr h] at hb; cases hb
    exact iff_of_true (by simp [strLeB, hb]) (le_of_not_lt hnlt)
  | true =>
    exact iff_of_false (by simp [strLeB, hb]) (not_le.mpr (hbridge.mp hb))

theorem le_empty_eq (s : String) (h : s ≤ "") : s = "" := by
  rcases s with ⟨data⟩
  cases data with
  | nil => rfl
  | cons c cs =>
    exfalso
    have hlt : ("" : String) < ⟨c :: cs⟩ :=
      String.lt_iff_toList_lt.mpr List.Lex.nil
    exact absurd hlt (not_lt.mpr h)

/-! ## The sort of lines 263-265: permutation, sortedness, stability -/

theorem insertDesc_perm (a : Entry) (l : List Entry) :
    List.Perm (insertDesc a l) (a :: l) := by
  induction l with
  | nil => exact List.Perm.refl _
  | cons b t ih =>
    simp only [insertDesc]
    by_cases h : strLeB (entryKey b) (entryKey a) = true
    · rw [if_pos h]
    · rw [if_neg h]
      exact (ih.cons b).trans (List.Perm.swap a b t)

theorem pySortDesc_perm (l : List Entry) : List.Perm (pySortDesc l) l := by
  induction l with
  | nil => exact List.Perm.refl _
  | cons a t ih => exact (insertDesc_perm a (pySortDesc t)).trans (ih.cons a)

theorem mem_insertDesc {x a : Entry} {l : List Entry} :
    x ∈ insertDesc a l ↔ x = a ∨ x ∈ l := by
  rw [(insertDesc_perm a l).mem_iff]
  simp

theorem insertDesc_pairwise (a : Entry) (l : List Entry)
    (h : l.Pairwise (fun x y => entryKey y ≤ entryKey x)) :
    (insertDesc a l).Pairwise (fun x y => entryKey y ≤ entryKey x) := by
  induction l with
  | nil => simp [insertDesc]
  | cons b t ih =>
    rw [List.pairwise_cons] at h
    obtain ⟨hb, ht⟩ := h
    simp only [insertDesc]
    by_cases hle : strLeB (entryKey b) (entryKey a) = true
    · rw [if_pos hle]
      have hba : entryKey b ≤ entryKey a := (strLeB_iff _ _).mp hle
      refine List.Pairwise.cons ?_ (List.Pairwise.cons hb ht)
      intro y hy
      rcases List.mem_cons.mp hy with rfl | hyt
      · exact hba
      · exact le_trans (hb y hyt) hba
    · rw [if_neg hle]
      have hab : entryKey a ≤ entryKey b :=
        le_of_not_le (fun hc => hle ((strLeB_iff _ _).mpr hc))
      refine List.Pairwise.cons ?_ (ih ht)
      intro y hy
      rcases mem_insertDesc.mp hy with rfl | hyt
      · exact hab
      · exact hb y hyt

theorem pySortDesc_pairwise (l : List Entry) :
    (pySortDesc l).Pairwise (fun x y => entryKey y ≤ entryKey x) := by
  induction l with
  | nil => simp [pySortDesc]
  | cons a t ih => exact insertDesc_pairwise a (pySortDesc t) ih

theorem filter_insertDesc (c : String) (a : Entry) (l : List Entry) :
    (insertDesc a l).filter (fun e => decide (entryKey e = c)) =
      if entryKey a = c then a :: l.filter (fun e => decide (entryKey e = c))
      else l.filter (fun e => decide (entryKey e = c)) := by
  induction l with
  | nil =>
    by_cases hac : entryKey a = c <;>
      simp [insertDesc, List.filter_cons, hac]
  | cons b t ih =>
    simp only [insertDesc]
    by_cases hle : strLeB (entryKey b) (entryKey a) = true
    · rw [if_pos hle]
      by_cases hac : entryKey a = c <;>
        simp [List.filter_cons, hac]
    · rw [if_neg hle]
      have hlt : entryKey a < entryKey b :=
        not_le.mp (fun hc => hle ((strLeB_iff _ _).mpr hc))
      by_cases hac : entryKey a = c
      · have hbc : ¬ entryKey b = c := by
          intro hbc
          rw [hac, hbc] at hlt
          exact lt_irrefl c hlt
        simp [List.filter_cons, hac, hbc, ih]
      · simp [List.filter_cons, hac, ih]

theorem pySortDesc_stable (c : String) (l : List Entry) :
    (pySortDesc l).filter (fun e => decide (entryKey e = c)) =
      l.filter (fun e => decide (entryKey e = c)) := by
  induction l with
  | nil => rfl
  | cons a t ih =>
    simp only [pySortDesc]
    rw [filter_insertDesc, ih]
    by_cases hac : entryKey a = c <;> simp [List.filter_cons, hac]

/-! ## Structure of the collection loop -/

theorem collect_eq (k : Int) (ocs : List (String × FetchOutcome)) :
    ∀ (es : List Entry) (ds : List (String × FCError)),
      collectSources k (es, ds) ocs =
        (es ++ sourceEntries k ocs, sourceErrors k ds ocs) := by
  induction ocs with
  | nil => intro es ds; simp [collectSources, sourceEntries, sourceErrors]
  | cons p t ih =>
    intro es ds
    simp only [collectSources, sourceEntries, sourceErrors]
    cases hp : processSource k p.2 with
    | ok es2 => rw [ih]; simp [List.append_assoc]
    | error e => rw [ih]; simp

theorem sourceEntries_append (k : Int) (l1 l2 : List (String × FetchOutcome)) :
    sourceEntries k (l1 ++ l2) = sourceEntries k l1 ++ sourceEntries k l2 := by
  induction l1 with
  | nil => simp [sourceEntries]
  | cons p t ih => simp only [List.cons_append, sourceEntries, List.append_eq,
      ih, List.append_assoc]

theorem sourceErrors_append (k : Int) (d : List (String × FCError))
    (l1 l2 : List (String × FetchOutcome)) :
    sourceErrors k d (l1 ++ l2) = sourceErrors k (sourceErrors k d l1) l2 := by
  induction l1 generalizing d with
  | nil => simp [sourceErrors]
  | cons p t ih => simp only [List.cons_append, sourceErrors, List.append_eq, ih]

theorem keys_dictInsert (u : String) (v : FCError)
    (d : List (String × FCError)) :
    (dictInsert u v d).map Prod.fst =
      if u ∈ d.map Prod.fst then d.map Prod.fst
      else d.map Prod.fst ++ [u] := by
  induction d with
  | nil => simp [dictInsert]
  | cons q t ih =>
    obtain ⟨qk, qv⟩ := q
    simp only [dictInsert, List.map_cons]
    by_cases hq : qk = u
    · subst hq
      rw [if_pos rfl]
      simp
    · rw [if_neg hq]
      simp only [List.map_cons, ih]
      by_cases hmem : u ∈ t.map Prod.fst
      · rw [if_pos hmem, if_pos (List.mem_cons_of_mem qk hmem)]
      · rw [if_neg hmem, if_neg ?_]
        · simp
        · intro hc
          rcases List.mem_cons.mp hc with heq | hmem2
          · exact hq heq.symm
          · exact hmem hmem2

theorem mem_keys_dictInsert (u : String) (v : FCError)
    (d : List (String × FCError)) :
    u ∈ (dictInsert u v d).map Prod.fst := by
  rw [keys_dictInsert]
  by_cases hmem : u ∈ d.map Prod.fst
  · rw [if_pos hmem]; exact hmem
  · rw [if_neg hmem]; exact List.mem_append_right _ (List.mem_singleton.mpr rfl)

theorem mem_keys_dictInsert_of_mem (u u' : String) (v : FCError)
    (d : List (String × FCError)) (h : u ∈ d.map Prod.fst) :
    u ∈ (dictInsert u' v d).map Prod.fst := by
  rw [keys_dictInsert]
  by_cases hmem : u' ∈ d.map Prod.fst
  · rw [if_pos hmem]; exact h
  · rw [if_neg hmem]; exact List.mem_append_left _ h

theorem nodup_keys_dictInsert (u : String) (v : FCError)
    (d : List (String × FCError)) (h : (d.map Prod.fst).Nodup) :
    ((dictInsert u v d).map Prod.fst).Nodup := by
  rw [keys_dictInsert]
  by_cases hmem : u ∈ d.map Prod.fst
  · rw [if_pos hmem]; exact h
  · rw [if_neg hmem]
    simp [List.nodup_append, h, hmem]

theorem mem_keys_sourceErrors (k : Int) (u : String)
    (d : List (String × FCError)) (l : List (String × FetchOutcome))
    (h : u ∈ d.map Prod.fst) :
    u ∈ (sourceErrors k d l).map Prod.fst := by
  induction l generalizing d with
  | nil => exact h
  | cons p t ih =>
    simp only [sourceErrors]
    cases hp : processSource k p.2 with
    | ok es => exact ih d h
    | error e => exact ih _ (mem_keys_dictInsert_of_mem u p.1 e d h)

theorem nodup_keys_sourceErrors (k : Int) (d : List (String × FCError))
    (l : List (String × FetchOutcome)) (h : (d.map Prod.fst).Nodup) :
    ((sourceErrors k d l).map Prod.fst).Nodup := by
  induction l generalizing d with
  | nil => exact h
  | cons p t ih =>
    simp only [sourceErrors]
    cases hp : processSource k p.2 with
    | ok es => exact ih d h
    | error e => exact ih _ (nodup_keys_dictInsert p.1 e d h)

theorem countP_key_eq_one (u : String) :
    ∀ (l : List (String × FCError)), (l.map Prod.fst).Nodup →
      u ∈ l.map Prod.fst →
      l.countP (fun q => decide (q.1 = u)) = 1 := by
  intro l
  induction l with
  | nil => intro _ h; nomatch h
  | cons q t ih =>
    intro hnd hmem
    rw [List.map_cons, List.nodup_cons] at hnd
    rw [List.countP_cons]
    rcases List.mem_cons.mp hmem with heq | hmem2
    · have hzero : t.countP (fun q => decide (q.1 = u)) = 0 := by
        rw [List.countP_eq_zero]
        intro a ha hq
        apply hnd.1
        rw [← heq, ← of_decide_eq_true hq]
        exact List.mem_map_of_mem Prod.fst ha
      rw [hzero]
      simp [← heq]
    · have hne : ¬ q.1 = u := by
        intro hc
        exact hnd.1 (hc ▸ hmem2)
      rw [ih hnd.2 hmem2]
      simp [hne]

/-! ## Permutation and uniqueness machinery for order-independence -/

theorem sourceEntries_perm (k : Int) {ocs1 ocs2 : List (String × FetchOutcome)}
    (h : List.Perm ocs1 ocs2) :
    List.Perm (sourceEntries k ocs1) (sourceEntries k ocs2) := by
  induction h with
  | nil => exact List.Perm.refl _
  | cons p h ih =>
    simp only [sourceEntries]
    exact List.Perm.append_left _ ih
  | swap x y l =>
    simp only [sourceEntries]
    exact List.perm_append_comm_assoc _ _ _
  | trans h1 h2 ih1 ih2 => exact ih1.trans ih2

theorem pairwise_gt_of_nodup_keys {l : List Entry}
    (hs : l.Pairwise (fun x y => entryKey y ≤ entryKey x))
    (hn : (l.map entryKey).Nodup) :
    l.Pairwise (fun x y => entryKey y < entryKey x) := by
  have hne : l.Pairwise (fun x y => entryKey x ≠ entryKey y) :=
    List.pairwise_map.mp hn
  exact (hs.and hne).imp (fun h => lt_of_le_of_ne h.1 (Ne.symm h.2))

theorem strictSorted_perm_eq :
    ∀ {l1 l2 : List Entry}, List.Perm l1 l2 →
      l1.Pairwise (fun x y => entryKey y < entryKey x) →
      l2.Pairwise (fun x y => entryKey y < entryKey x) → l1 = l2 := by
  intro l1
  induction l1 with
  | nil =>
    intro l2 h _ _
    exact (List.Perm.eq_nil h.symm).symm
  | cons a t1 ih =>
    intro l2 h hp1 hp2
    cases l2 with
    | nil => exact absurd (List.Perm.eq_nil h) (by simp)
    | cons b t2 =>
      have hab : a = b := by
        have ha2 : a ∈ b :: t2 := h.mem_iff.mp (List.mem_cons_self a t1)
        rcases List.mem_cons.mp ha2 with heq | hat2
        · exact heq
        · have h1 : entryKey a < entryKey b :=
            (List.pairwise_cons.mp hp2).1 a hat2
          have hb1 : b ∈ a :: t1 := h.symm.mem_iff.mp (List.mem_cons_self b t2)
          rcases List.mem_cons.mp hb1 with heq2 | hbt1
          · exact absurd (heq2 ▸ h1) (lt_irrefl _)
          · have h2 : entryKey b < entryKey a :=
              (List.pairwise_cons.mp hp1).1 b hbt1
            exact absurd (lt_trans h1 h2) (lt_irrefl _)
      subst hab
      have ht : List.Perm t1 t2 := h.cons_inv
      rw [ih ht (List.pairwise_cons.mp hp1).2 (List.pairwise_cons.mp hp2).2]

/-! ## Claim C1 -/

/-- C1: For every pipeline run, the merged sequence is a permutation of
the collected entries, sorted non-increasing by the key
`published or updated or ""`, stably (entries with equal keys keep their
relative input order); an entry lacking both timestamps carries the key
`""`, and any such entry appears after every entry whose key is
non-empty; the pipeline's canonical output is the normalized image of
this merged sequence. -/
theorem c1_merge_sorted (k : Int) (ps : Bool)
    (ocs : List (String × FetchOutcome)) :
    List.Perm (pySortDesc (sourceEntries k ocs)) (sourceEntries k ocs) ∧
    (pySortDesc (sourceEntries k ocs)).Pairwise
      (fun x y => entryKey y ≤ entryKey x) ∧
    (∀ c : String,
      (pySortDesc (sourceEntries k ocs)).filter
          (fun e => decide (entryKey e = c)) =
        (sourceEntries k ocs).filter (fun e => decide (entryKey e = c))) ∧
    (∀ e : Entry, e.published = none → e.updated = none → entryKey e = "") ∧
    (∀ i j : Fin (pySortDesc (sourceEntries k ocs)).length,
      entryKey ((pySortDesc (sourceEntries k ocs)).get i) = "" →
      entryKey ((pySortDesc (sourceEntries k ocs)).get j) ≠ "" →
      (j : Nat) < (i : Nat)) ∧
    (runPipeline k ps ocs).1 =
      extract_meta (pySortDesc (sourceEntries k ocs)) ps := by
  refine ⟨pySortDesc_perm _, pySortDesc_pairwise _,
    fun c => pySortDesc_stable c _, ?_, ?_, ?_⟩
  · intro e h1 h2
    simp [entryKey, pyOr, h1, h2]
  · intro i j hi hj
    by_contra hcon
    push_neg at hcon
    rcases Nat.lt_or_ge (i : Nat) (j : Nat) with hlt | hge
    · have hrel := List.pairwise_iff_get.mp (pySortDesc_pairwise _) i j hlt
      exact hj (le_empty_eq _ (hi ▸ hrel))
    · have hij : i = j := Fin.ext (Nat.le_antisymm hcon hge)
      rw [hij] at hi
      exact hj hi
  · simp [runPipeline, collect_eq]

/-- Witness for C1 at a concrete two-source run: the entry with a
published timestamp sorts first, the entry lacking both timestamps
carries the key `""` and sorts last. -/
theorem c1_merge_sorted_witness :
    entryKey (c1out.getD 0 emptyEntry) = "2020-01-02" ∧
    entryKey (c1out.getD 1 emptyEntry) = "" ∧
    c1out.length = 2 ∧ (0 : Nat) < 1 := by
  refine ⟨by decide, by decide, by decide, ?_⟩
  exact (c1_merge_sorted 3 true c1ocs).2.2.2.2.1 ⟨1, by decide⟩ ⟨0, by decide⟩
    (by decide) (by decide)

/-! ## Claim C2 -/

/-- C2: for keep-count `k >= 1` a successfully parsed source with `m`
entries contributes exactly `min(k, m)` entries to the merge step — its
first `min(k, m)` entries in parser order (annotated); for `k < 1` all
`m` entries enter the merge step. -/
theorem c2_keep_count (k : Int) (f : ParsedFeed)
    (hok : ¬ (f.entries.length = 0 ∧ f.bozo = true)) :
    (1 ≤ k →
      processSource k (.ok f) =
        .ok ((f.entries.take k.toNat).map (annotateEntry f)) ∧
      ((f.entries.take k.toNat).map (annotateEntry f)).length =
        min k.toNat f.entries.length) ∧
    (k < 1 → processSource k (.ok f) = .ok (f.entries.map (annotateEntry f))) := by
  constructor
  · intro hk
    have hnk : ¬ k < 1 := not_lt.mpr hk
    constructor
    · simp only [processSource]
      rw [if_neg hok]
      simp [keepNewest, hnk]
    · simp [List.length_take]
  · intro hk
    simp only [processSource]
    rw [if_neg hok]
    simp [keepNewest, hk]

/-- Witness for C2: a source with three entries and keep-count 2
contributes exactly its first two entries. -/
theorem c2_keep_count_witness :
    processSource 2 (.ok c2f) =
      .ok ((c2f.entries.take (Int.toNat 2)).map (annotateEntry c2f)) ∧
    ((c2f.entries.take (Int.toNat 2)).map (annotateEntry c2f)).length =
      min (Int.toNat 2) c2f.entries.length ∧
    min (Int.toNat 2) c2f.entries.length = 2 := by
  have h := (c2_keep_count 2 c2f (by decide)).1 (by decide)
  exact ⟨h.1, h.2, by decide⟩

/-! ## Claim C3 -/

/-- C3: a source whose fetch or parse fails contributes zero entries,
the run's collected entries equal those of the same run without the
failing source (no other source's contribution is aborted, removed or
altered), and the error dict holds exactly one record keyed by the
failing URL. -/
theorem c3_failure_isolated (k : Int) (u : String) (oc : FetchOutcome)
    (err : FCError) (pre post : List (String × FetchOutcome))
    (h : processSource k oc = .error err) :
    (∀ es : List Entry, processSource k oc ≠ .ok es) ∧
    (collectSources k ([], []) (pre ++ (u, oc) :: post)).1 =
      (collectSources k ([], []) (pre ++ post)).1 ∧
    ((collectSources k ([], []) (pre ++ (u, oc) :: post)).2).countP
      (fun q => decide (q.1 = u)) = 1 := by
  refine ⟨?_, ?_, ?_⟩
  · intro es hc
    rw [h] at hc
    exact Except.noConfusion hc
  · simp only [collect_eq, List.nil_append]
    rw [sourceEntries_append, sourceEntries_append]
    congr 1
    simp [sourceEntries, h]
  · simp only [collect_eq]
    rw [sourceErrors_append]
    simp only [sourceErrors, h]
    apply countP_key_eq_one
    · apply nodup_keys_sourceErrors
      apply nodup_keys_dictInsert
      apply nodup_keys_sourceErrors
      simp
    · apply mem_keys_sourceErrors
      apply mem_keys_dictInsert

/-- Witness for C3 at a concrete run: one healthy source plus one
transport-failing source. -/
theorem c3_failure_isolated_witness :
    (collectSources 3 ([], [])
      (c3pre ++ ("http://bad.example/feed",
        FetchOutcome.exn (.requestError "500 Server Error")) :: [])).1 =
      (collectSources 3 ([], []) (c3pre ++ [])).1 ∧
    ((collectSources 3 ([], [])
      (c3pre ++ ("http://bad.example/feed",
        FetchOutcome.exn (.requestError "500 Server Error")) :: [])).2).countP
      (fun q => decide (q.1 = "http://bad.example/feed")) = 1 := by
  have h := c3_failure_isolated 3 "http://bad.example/feed"
    (.exn (.requestError "500 Server Error")) (.requestError "500 Server Error")
    c3pre [] rfl
  exact ⟨h.2.1, h.2.2⟩

/-! ## Claim C4 -/

/-- C4 counterexample: two runs with identical configuration and
identical per-source outcomes, differing only in fetch completion
order, produce different canonical sequences.  The two sources'
entries lack timestamps, so both carry the merge key `""`; the stable
sort preserves their completion-order positions. -/
theorem c4_completion_order_leaks_counterexample :
    List.Perm c4ocs1 c4ocs2 ∧
    (runPipeline 3 true c4ocs1).1 ≠ (runPipeline 3 true c4ocs2).1 := by
  constructor
  · exact List.Perm.swap _ _ _
  · decide

/-- C4 amended: with fixed configuration and fixed per-source outcomes,
the canonical sequence is identical across fetch completion orders
provided the contributed entries' merge keys are pairwise distinct;
when two entries share a merge key, completion order determines their
relative position (see the counterexample). -/
theorem c4_order_independent_distinct_keys (k : Int) (ps : Bool)
    (ocs1 ocs2 : List (String × FetchOutcome))
    (hperm : List.Perm ocs1 ocs2)
    (hkeys : ((sourceEntries k ocs1).map entryKey).Nodup) :
    (runPipeline k ps ocs1).1 = (runPipeline k ps ocs2).1 := by
  have hperm2 : List.Perm (sourceEntries k ocs1) (sourceEntries k ocs2) :=
    sourceEntries_perm k hperm
  have hkeys2 : ((sourceEntries k ocs2).map entryKey).Nodup :=
    ((hperm2.map entryKey).nodup_iff).mp hkeys
  have hsk1 : ((pySortDesc (sourceEntries k ocs1)).map entryKey).Nodup :=
    (((pySortDesc_perm (sourceEntries k ocs1)).map entryKey).nodup_iff).mpr hkeys
  have hsk2 : ((pySortDesc (sourceEntries k ocs2)).map entryKey).Nodup :=
    (((pySortDesc_perm (sourceEntries k ocs2)).map entryKey).nodup_iff).mpr hkeys2
  have hstrict1 := pairwise_gt_of_nodup_keys (pySortDesc_pairwise _) hsk1
  have hstrict2 := pairwise_gt_of_nodup_keys (pySortDesc_pairwise _) hsk2
  have hp : List.Perm (pySortDesc (sourceEntries k ocs1))
      (pySortDesc (sourceEntries k ocs2)) :=
    (pySortDesc_perm _).trans (hperm2.trans (pySortDesc_perm _).symm)
  have heq := strictSorted_perm_eq hp hstrict1 hstrict2
  simp [runPipeline, collect_eq, heq]

/-- Witness for the amended C4: two completion orders of two sources
with distinct published timestamps give the same canonical sequence. -/
theorem c4_order_independent_distinct_keys_witness :
    (runPipeline 3 true c4docs1).1 = (runPipeline 3 true c4docs2).1 ∧
    ((sourceEntries 3 c4docs1).map entryKey).Nodup := by
  refine ⟨c4_order_independent_distinct_keys 3 true c4docs1 c4docs2
    (List.Perm.swap _ _ _) (by decide), by decide⟩

/-! ## Claim C5 -/

/-- C5: reassigning `feeds` or `num_keep` empties the cached entry
list, so the next read of `mixed_entries` goes through
`__fetch_entries` (returning the fresh pipeline result), never the
stale cached entries. -/
theorem c5_setter_invalidates (net : String → FetchOutcome) (s : FMState)
    (v : List String) (k : Int) :
    (setFeeds v s).mixed_entries = [] ∧
    (setNumKeep k s).mixed_entries = [] ∧
    readMixedEntries net (setFeeds v s) =
      (fetchEntries net (setFeeds v s)).map (fun r => (r.mixed_entries, r)) ∧
    readMixedEntries net (setNumKeep k s) =
      (fetchEntries net (setNumKeep k s)).map (fun r => (r.mixed_entries, r)) := by
  exact ⟨rfl, rfl, rfl, rfl⟩

/-! ## Claim C6 -/

/-- C6 counterexample: on an unfetched mixer (`c6s`, fresh from
construction), reading `error_urls` returns the pre-run empty dict and
leaves the state unchanged (no pipeline run), although the pipeline
run for this configuration would record an error for the source. -/
theorem c6_error_read_no_trigger_counterexample :
    readErrorUrls c6s = ([], c6s) ∧
    (readErrorUrls c6s).2.runs = 0 ∧
    fetchEntries c6net c6s =
      .ok { c6s with
        mixed_entries := [],
        error_urls := [("http://a.example/feed",
          .requestError "connection refused")],
        runs := 1 } ∧
    ([] : List (String × FCError)) ≠
      [("http://a.example/feed", FCError.requestError "connection refused")] := by
  refine ⟨rfl, rfl, rfl, by decide⟩

/-- C6 amended: requesting the canonical entries for the first time
(cached list empty) triggers the Unfetched-to-Fetched transition and
stores that run's entries and error record; reading `error_urls` never
triggers the pipeline — it returns the stored record (empty before any
run) and leaves the state unchanged. -/
theorem c6_amended_lazy_trigger (net : String → FetchOutcome) (s : FMState)
    (hunf : s.mixed_entries = []) (hmt : 1 ≤ s.max_threads) :
    readErrorUrls s = (s.error_urls, s) ∧
    readMixedEntries net s =
      (fetchEntries net s).map (fun r => (r.mixed_entries, r)) ∧
    ∃ s' : FMState, fetchEntries net s = .ok s' ∧
      s'.runs = s.runs + 1 ∧
      s'.mixed_entries =
        (runPipeline s.num_keep s.prefer_summary
          (s.feeds.map (fun u => (u, net u)))).1 ∧
      (readErrorUrls s').1 =
        (runPipeline s.num_keep s.prefer_summary
          (s.feeds.map (fun u => (u, net u)))).2 := by
  have hnneg : ¬ s.max_threads ≤ 0 :=
    not_le.mpr (lt_of_lt_of_le zero_lt_one hmt)
  refine ⟨rfl, ?_, ?_⟩
  · rw [readMixedEntries, if_pos (by rw [hunf]; decide)]
  · refine ⟨{ s with
      mixed_entries := (runPipeline s.num_keep s.prefer_summary
        (s.feeds.map (fun u => (u, net u)))).1,
      error_urls := (runPipeline s.num_keep s.prefer_summary
        (s.feeds.map (fun u => (u, net u)))).2,
      runs := s.runs + 1 }, ?_, rfl, rfl, rfl⟩
    rw [fetchEntries, if_neg hnneg]

/-- Witness for the amended C6 at a concrete unfetched mixer whose
single source fails: the first `mixed_entries` read runs the pipeline
once, after which `error_urls` returns that run's record. -/
theorem c6_amended_lazy_trigger_witness :
    (readErrorUrls c6s).1 = [] ∧
    (∃ s' : FMState, fetchEntries c6net c6s = .ok s' ∧ s'.runs = 1 ∧
      (readErrorUrls s').1 =
        [("http://a.example/feed",
          FCError.requestError "connection refused")]) := by
  have h := c6_amended_lazy_trigger c6net c6s rfl (by decide)
  obtain ⟨h1, h2, s', hf, hr, hm, he⟩ := h
  refine ⟨rfl, s', hf, hr, ?_⟩
  rw [he]
  decide

/-! ## Claim C7 -/

/-- C7 counterexample: construction with a zero concurrency bound
succeeds (the invalid bound is stored unvalidated), and the error
surfaces only at the first pipeline run — it is deferred to fetch
time, not raised at construction. -/
theorem c7_no_construction_validation_counterexample :
    c7s.max_threads = 0 ∧
    c7s.feeds = ["http://a.example/feed"] ∧
    fetchEntries c7net c7s = .error "max_workers must be greater than 0" := by
  refine ⟨rfl, by decide, rfl⟩

/-- C7 amended: construction never validates configuration and always
succeeds, storing the configuration as given (with `feeds` truncated to
`max_feeds`) and empty caches; a pipeline run succeeds exactly when the
concurrency bound is positive — a non-positive bound surfaces as an
error at fetch time. -/
theorem c7_amended_deferred_validation (net : String → FetchOutcome)
    (t l d : String) (fs : List String) (k : Int) (ps : Bool) (mt : Int)
    (mf : Nat) :
    (mkFeedMixer t l d fs k ps mt mf).max_threads = mt ∧
    (mkFeedMixer t l d fs k ps mt mf).feeds = fs.take mf ∧
    (mkFeedMixer t l d fs k ps mt mf).mixed_entries = [] ∧
    (mkFeedMixer t l d fs k ps mt mf).error_urls = [] ∧
    ((∃ s' : FMState,
      fetchEntries net (mkFeedMixer t l d fs k ps mt mf) = .ok s') ↔
      1 ≤ mt) := by
  refine ⟨rfl, rfl, rfl, rfl, ?_⟩
  constructor
  · rintro ⟨s', hs'⟩
    by_contra hlt
    push_neg at hlt
    have hle : (mkFeedMixer t l d fs k ps mt mf).max_threads ≤ 0 := by
      show mt ≤ 0
      omega
    rw [fetchEntries, if_pos hle] at hs'
    exact Except.noConfusion hs'
  · intro hmt
    have hne : ¬ (mkFeedMixer t l d fs k ps mt mf).max_threads ≤ 0 := by
      show ¬ mt ≤ 0
      omega
    exact ⟨_, by rw [fetchEntries, if_neg hne]⟩

/-- Witness for the amended C7: a mixer constructed with concurrency
bound 0 stores the bound and fails its first run, while the same
configuration with bound 10 runs. -/
theorem c7_amended_deferred_validation_witness :
    c7s.max_threads = 0 ∧
    ¬ (∃ s' : FMState, fetchEntries c7net c7s = .ok s') ∧
    (∃ s' : FMState, fetchEntries c6net c6s = .ok s') := by
  refine ⟨rfl, ?_, ?_⟩
  · intro hex
    have h := (c7_amended_deferred_validation c7net "T" "" ""
      ["http://a.example/feed"] 3 true 0 100).2.2.2.2.mp hex
    omega
  · exact (c7_amended_deferred_validation c6net "T" "http://mix.example/" "D"
      ["http://a.example/feed"] 3 true 10 100).2.2.2.2.mpr (by omega)

/-! ## Claim C8 -/

/-- C8: a fetched text that parses to zero entries with the malformed
(bozo) flag set is classified as a `ParseError` — never a zero-entry
success — and that classification is distinct from a transport failure
and from any other exception kind. -/
theorem c8_bozo_parse_error (k : Int) (f : ParsedFeed)
    (h1 : f.entries = []) (h2 : f.bozo = true) :
    processSource k (.ok f) =
      .error (.parseError ("Parse error: " ++ f.bozo_exception.getD "None")) ∧
    (∀ es : List Entry, processSource k (.ok f) ≠ .ok es) ∧
    (∀ m m' : String, FCError.parseError m ≠ FCError.requestError m' ∧
      FCError.parseError m ≠ FCError.otherError m') := by
  have hcond : f.entries.length = 0 ∧ f.bozo = true := ⟨by rw [h1]; rfl, h2⟩
  have hmain : processSource k (.ok f) =
      .error (.parseError ("Parse error: " ++ f.bozo_exception.getD "None")) := by
    simp only [processSource]
    rw [if_pos hcond]
  refine ⟨hmain, ?_, ?_⟩
  · intro es hc
    rw [hmain] at hc
    exact Except.noConfusion hc
  · intro m m'
    exact ⟨fun hc => FCError.noConfusion hc, fun hc => FCError.noConfusion hc⟩

/-- Witness for C8: a concrete malformed zero-entry feed is classified
as `ParseError` carrying the parser's bozo message. -/
theorem c8_bozo_parse_error_witness :
    processSource 3 (.ok c8f) =
      .error (.parseError "Parse error: not well-formed") ∧
    FCError.parseError "Parse error: not well-formed" ≠
      FCError.requestError "500 Server Error" := by
  have h := c8_bozo_parse_error 3 c8f rfl rfl
  exact ⟨h.1, (h.2.2 "Parse error: not well-formed" "500 Server Error").1⟩

/-! ## Claim C9 -/

theorem annotateEntry_idem (f g : ParsedFeed) (hfeed : g.feed = f.feed)
    (e : Entry) : annotateEntry g (annotateEntry f e) = annotateEntry f e := by
  cases hae : e.author_detail with
  | some ad => simp [annotateEntry, hae, hfeed]
  | none =>
    cases haf : f.feed.author_detail with
    | none => simp [annotateEntry, hae, haf, hfeed]
    | some ad => simp [annotateEntry, hae, haf, hfeed]

theorem keepNewest_mut (k : Int) (es : List Entry) (g : Entry → Entry) :
    keepNewest k ((keepNewest k es).map g ++
      es.drop (if k < 1 then es.length else k.toNat)) =
      (keepNewest k es).map g := by
  by_cases hk : k < 1
  · simp only [keepNewest, if_pos hk, List.drop_length, List.append_nil]
  · simp only [keepNewest, if_neg hk]
    by_cases hlen : es.length ≤ k.toNat
    · rw [List.take_of_length_le hlen, List.drop_eq_nil_of_le hlen,
        List.append_nil]
      exact List.take_of_length_le (by rw [List.length_map]; exact hlen)
    · push_neg at hlen
      exact List.take_left' (by
        rw [List.length_map, List.length_take]
        exact Nat.min_eq_left (Nat.le_of_lt hlen))

theorem drop_mut (k : Int) (es : List Entry) (g : Entry → Entry) :
    ((keepNewest k es).map g ++
      es.drop (if k < 1 then es.length else k.toNat)).drop
      (if k < 1 then
        ((keepNewest k es).map g ++
          es.drop (if k < 1 then es.length else k.toNat)).length
       else k.toNat) =
      es.drop (if k < 1 then es.length else k.toNat) := by
  by_cases hk : k < 1
  · simp [if_pos hk, List.drop_length]
  · simp only [if_neg hk]
    by_cases hlen : es.length ≤ k.toNat
    · rw [List.drop_eq_nil_of_le hlen, List.append_nil, keepNewest,
        if_neg hk, List.take_of_length_le hlen]
      exact List.drop_eq_nil_of_le (by rw [List.length_map]; exact hlen)
    · push_neg at hlen
      rw [keepNewest, if_neg hk]
      exact List.drop_left' (by
        rw [List.length_map, List.length_take]
        exact Nat.min_eq_left (Nat.le_of_lt hlen))

theorem processFeedMut_idem (k : Int) (f : ParsedFeed) :
    processFeedMut k (processFeedMut k f).2 = processFeedMut k f := by
  have hkeep : keepNewest k ((processFeedMut k f).2.entries) =
      (keepNewest k f.entries).map (annotateEntry f) :=
    keepNewest_mut k f.entries (annotateEntry f)
  have hmap : ((keepNewest k f.entries).map (annotateEntry f)).map
      (annotateEntry (processFeedMut k f).2) =
      (keepNewest k f.entries).map (annotateEntry f) := by
    rw [List.map_map]
    have hfun : annotateEntry (processFeedMut k f).2 ∘ annotateEntry f =
        annotateEntry f :=
      funext (fun e => annotateEntry_idem f _ rfl e)
    rw [hfun]
  have hdrop : ((processFeedMut k f).2.entries).drop
      (if k < 1 then ((processFeedMut k f).2.entries).length else k.toNat) =
      f.entries.drop (if k < 1 then f.entries.length else k.toNat) :=
    drop_mut k f.entries (annotateEntry f)
  have hfst : (processFeedMut k (processFeedMut k f).2).1 =
      (processFeedMut k f).1 := by
    show (keepNewest k ((processFeedMut k f).2.entries)).map
      (annotateEntry (processFeedMut k f).2) = _
    rw [hkeep, hmap]
    rfl
  have hent : (processFeedMut k (processFeedMut k f).2).2.entries =
      (processFeedMut k f).2.entries := by
    show (keepNewest k ((processFeedMut k f).2.entries)).map
        (annotateEntry (processFeedMut k f).2) ++
        ((processFeedMut k f).2.entries).drop
          (if k < 1 then ((processFeedMut k f).2.entries).length
           else k.toNat) = _
    rw [hkeep, hmap, hdrop]
    rfl
  have hsnd : (processFeedMut k (processFeedMut k f).2).2 =
      (processFeedMut k f).2 :=
    ParsedFeed.ext rfl hent rfl rfl
  exact Prod.ext hfst hsnd

/-- C9 counterexample: the cached `ParsedFeed` is not read-only — after
the truncation/annotation step processes it, the cached feed differs
from what the parser produced: its kept entries now carry `feed_link`
and `feed_title`. -/
theorem c9_cache_mutated_counterexample :
    (processFeedMut 3 c9f).2 ≠ c9f ∧
    (processFeedMut 3 c9f).2.entries =
      [{ emptyEntry with feed_link := some "http://a.example/",
                         feed_title := some "A" }] := by
  exact ⟨by decide, by decide⟩

/-- C9 amended: the truncation/annotation step mutates the cached
`ParsedFeed` in place: its kept entries (and exactly those) are
annotated with `feed_link`/`feed_title` (and inherited `author_detail`
when applicable); the feed metadata, the malformed flag and the entries
beyond the keep-count are unmodified; the mutation is idempotent, so a
second consumer of the same cache entry sees the annotated entries —
not the parser's originals — and re-processing yields the identical
contribution and cache state.  Sorting and normalization act on copies
and do not touch the cached feed further. -/
theorem c9_amended_cache_annotated (k : Int) (f : ParsedFeed) :
    (processFeedMut k f).1 = (keepNewest k f.entries).map (annotateEntry f) ∧
    (processFeedMut k f).2.feed = f.feed ∧
    (processFeedMut k f).2.bozo = f.bozo ∧
    (processFeedMut k f).2.bozo_exception = f.bozo_exception ∧
    (processFeedMut k f).2.entries =
      (keepNewest k f.entries).map (annotateEntry f) ++
        f.entries.drop (if k < 1 then f.entries.length else k.toNat) ∧
    processFeedMut k (processFeedMut k f).2 = processFeedMut k f :=
  ⟨rfl, rfl, rfl, rfl, rfl, processFeedMut_idem k f⟩

/-! ## Claim C10 -/

theorem fetchEntries_ok (net : String → FetchOutcome) (s : FMState)
    (h : ¬ s.max_threads ≤ 0) :
    fetchEntries net s = .ok
      { s with
        mixed_entries := (runPipeline s.num_keep s.prefer_summary
          (s.feeds.map (fun u => (u, net u)))).1,
        error_urls := (runPipeline s.num_keep s.prefer_summary
          (s.feeds.map (fun u => (u, net u)))).2,
        runs := s.runs + 1 } := by
  rw [fetchEntries, if_neg h]

/-- C10: when a pipeline run produces an empty merged sequence, the
stored result is the empty list, which the `mixed_entries` guard
(cached list shorter than one entry) treats as unfetched: the next
read of `mixed_entries` and the next feed generation both re-run the
whole pipeline (run counter increments again), and this repeats; a
state with a non-empty cached list, by contrast, is returned as is. -/
theorem c10_empty_result_not_cached (net : String → FetchOutcome)
    (s : FMState) (hmt : 1 ≤ s.max_threads)
    (hempty : (runPipeline s.num_keep s.prefer_summary
      (s.feeds.map (fun u => (u, net u)))).1 = []) :
    (∀ t : FMState, t.mixed_entries ≠ [] →
      readMixedEntries net t = .ok (t.mixed_entries, t)) ∧
    ∃ s' : FMState, fetchEntries net s = .ok s' ∧
      s'.mixed_entries = [] ∧ s'.runs = s.runs + 1 ∧
      readMixedEntries net s' =
        (fetchEntries net s').map (fun r => (r.mixed_entries, r)) ∧
      generateFeed net s' =
        (fetchEntries net s').map
          (fun r => ((s'.title, s'.link, s'.desc), r.mixed_entries, r)) ∧
      ∃ s'' : FMState, fetchEntries net s' = .ok s'' ∧
        s''.mixed_entries = [] ∧ s''.runs = s.runs + 2 := by
  have hnneg : ¬ s.max_threads ≤ 0 :=
    not_le.mpr (lt_of_lt_of_le zero_lt_one hmt)
  constructor
  · intro t ht
    rw [readMixedEntries, if_neg
      (fun hlt => ht (List.length_eq_zero.mp (Nat.lt_one_iff.mp hlt)))]
  · obtain ⟨s', hs', hsm, hsr, hsk, hsp, hsf, hsmt⟩ :
        ∃ s', fetchEntries net s = .ok s' ∧ s'.mixed_entries = [] ∧
          s'.runs = s.runs + 1 ∧ s'.num_keep = s.num_keep ∧
          s'.prefer_summary = s.prefer_summary ∧ s'.feeds = s.feeds ∧
          s'.max_threads = s.max_threads :=
      ⟨_, fetchEntries_ok net s hnneg, hempty, rfl, rfl, rfl, rfl, rfl⟩
    have hnneg' : ¬ s'.max_threads ≤ 0 := by rw [hsmt]; exact hnneg
    have hempty' : (runPipeline s'.num_keep s'.prefer_summary
        (s'.feeds.map (fun u => (u, net u)))).1 = [] := by
      rw [hsk, hsp, hsf]; exact hempty
    have hread : readMixedEntries net s' =
        (fetchEntries net s').map (fun r => (r.mixed_entries, r)) := by
      rw [readMixedEntries, if_pos (by rw [hsm]; decide)]
    refine ⟨s', hs', hsm, hsr, hread, ?_, ?_⟩
    · rw [generateFeed, hread, fetchEntries_ok net s' hnneg']
      rfl
    · refine ⟨_, fetchEntries_ok net s' hnneg', hempty', ?_⟩
      show s'.runs + 1 = s.runs + 2
      omega

/-- Witness for C10 at a concrete mixer whose only source fails (so
the run's merged sequence is empty): the first read runs the pipeline,
the empty result is not treated as fetched, and a second read runs it
again. -/
theorem c10_empty_result_not_cached_witness :
    (runPipeline c10s.num_keep c10s.prefer_summary
      (c10s.feeds.map (fun u => (u, c10net u)))).1 = [] ∧
    (1 : Int) ≤ c10s.max_threads ∧
    ∃ s' : FMState, fetchEntries c10net c10s = .ok s' ∧
      s'.mixed_entries = [] ∧ s'.runs = 1 ∧
      ∃ s'' : FMState, fetchEntries c10net s' = .ok s'' ∧ s''.runs = 2 := by
  have h := c10_empty_result_not_cached c10net c10s (by decide) (by decide)
  obtain ⟨hcache, s', hf, hm, hr, hread, hgen, s'', hf2, hm2, hr2⟩ := h
  exact ⟨by decide, by decide, s', hf, hm, hr, s'', hf2, hr2⟩

end Feedmix
